import Mathlib

/-!
# Verification of the wifi_monitor_cli telemetry and rendering core

Shallow embedding of the pure computational core of the
`wifi_monitor_cli` repository:

* `ui/charts.py` — time bucketing (`bucket_by_time`), quantization and
  glyph selection (`sparkline`, `multi_sparkline`), `SPARK_CHARS`;
* `ui/live_view.py` — the aligned time-series store
  (`LiveView.collect_data`, `LiveView.get_windowed_data`);
* `core/ping.py` — ping host registry (`add_ping_host`,
  `remove_ping_host`);
* `core/scanner.py` — channel tables and scan aggregation
  (`scan_channels`, `freq_to_channel`);
* `core/storage.py` — heatmap day-representative selection
  (`_scan_total_networks`, the per-day kernel of `get_heatmap_data`).

Python floats are modelled as `ℚ`; a float that may be `NaN` ("missing")
is modelled as `Option ℚ` with `none` for `NaN`.  NumPy arrays are
modelled as lists.
-/

/-- NumPy `astype(int)` / Python `int(...)` on a float: truncation toward
zero (floor for nonnegative arguments, ceiling for negative ones). -/
def astype_int (q : ℚ) : ℤ := if 0 ≤ q then ⌊q⌋ else ⌈q⌉

/-- `np.clip(v, lo, hi)`: the lower bound is applied first, then the
upper bound. -/
def np_clip (v lo hi : ℚ) : ℚ := min (max v lo) hi

/-- The scalar quantization step shared by the renderers
(`charts.py`, `multi_sparkline` lines 229–236, and the single-row
`sparkline` with `levels = 9`): clip the value into `[min_val, max_val]`,
map linearly onto integer levels `0 .. levels-1` with float→int
truncation, and clip the level into range; when `max_val == min_val`
every value maps to `(levels-1) // 2` (Python floor division). -/
def quantize (value min_val max_val : ℚ) (levels : ℕ) : ℤ :=
  let max_level : ℤ := (levels : ℤ) - 1
  let v := np_clip value min_val max_val
  if max_val = min_val then Int.fdiv max_level 2
  else
    let n := astype_int ((v - min_val) / (max_val - min_val) * (max_level : ℚ))
    min (max n 0) max_level

/-- `SPARK_CHARS = " ▋▋▋▋▋▋▋▋"` from `charts.py` line 7: a blank
followed by eight copies of the 5/8-width block (a deliberate
"thin look"). -/
def SPARK_CHARS : List Char := [' ', '▋', '▋', '▋', '▋', '▋', '▋', '▋', '▋']

/-- `np.min` over a nonempty list (0 for the empty list, never used
there by the source). -/
def list_min : List ℚ → ℚ
  | [] => 0
  | x :: xs => xs.foldl min x

/-- `np.max` over a nonempty list (0 for the empty list, never used
there by the source). -/
def list_max : List ℚ → ℚ
  | [] => 0
  | x :: xs => xs.foldl max x

/-- The per-bucket glyph levels computed by `sparkline`
(`charts.py` lines 126–150): keep the last `width` points, substitute
the minimum valid value for `NaN`, and normalize to integer levels
`0 .. 8` (the constant level `4` when the data range is degenerate). -/
def sparkline_levels (data : List (Option ℚ)) (width : ℕ) : List ℕ :=
  let data := if data.length > width then data.drop (data.length - width) else data
  let valid_vals := data.filterMap id
  let mn := list_min valid_vals
  let clean := data.map (fun o => o.getD mn)
  let min_val := list_min clean
  let max_val := list_max clean
  if max_val = min_val then clean.map (fun _ => 4)
  else clean.map (fun v =>
    (min (max (astype_int ((v - min_val) / (max_val - min_val) * 8)) 0) 8).toNat)

/-- `sparkline(data, width)` from `charts.py` (the plain-string branch,
`color_func = None`): dashes for empty or all-missing data, otherwise
one glyph from `SPARK_CHARS` per kept point, left-padded with blanks up
to `width`. -/
def sparkline (data : List (Option ℚ)) (width : ℕ) : String :=
  if data.length = 0 then String.mk (List.replicate width '─')
  else if (data.filterMap id).length = 0 then String.mk (List.replicate width '─')
  else
    let kept := if data.length > width then data.drop (data.length - width) else data
    if (kept.filterMap id).length = 0 then String.mk (List.replicate width '─')
    else
      let glyphs := (sparkline_levels data width).map (fun n => SPARK_CHARS.getD n ' ')
      if glyphs.length < width then
        String.mk (List.replicate (width - glyphs.length) ' ' ++ glyphs)
      else String.mk glyphs

/-- Clipping is idempotent: re-clipping a clipped value changes nothing. -/
lemma np_clip_idem (v lo hi : ℚ) : np_clip (np_clip v lo hi) lo hi = np_clip v lo hi := by
  unfold np_clip
  rcases le_total lo hi with h | h
  · have h1 : lo ≤ min (max v lo) hi := le_min (le_max_right v lo) h
    rw [max_eq_left h1, min_eq_left (min_le_right (max v lo) hi)]
  · have h2 : min (max v lo) hi = hi :=
      min_eq_right (le_trans h (le_max_right v lo))
    rw [h2, max_eq_right h, min_eq_right h]

/-- C6: the renderers' quantization clamps the input to `[min, max]` and
maps it linearly to an integer level in `[0, levels-1]`: `min` maps to
level `0`, `max` maps to level `levels-1` when `levels > 1`, the result
always lies in `[0, levels-1]`, when `max == min` every value maps to the
midpoint level `(levels-1) // 2`, and quantizing a value equals
quantizing its clamped image. -/
theorem quantize_spec (value min_val max_val : ℚ) (levels : ℕ) :
    (min_val < max_val → 0 < levels → quantize min_val min_val max_val levels = 0) ∧
    (min_val < max_val → 1 < levels →
      quantize max_val min_val max_val levels = (levels : ℤ) - 1) ∧
    (max_val = min_val →
      quantize value min_val max_val levels = Int.fdiv ((levels : ℤ) - 1) 2) ∧
    (0 < levels → 0 ≤ quantize value min_val max_val levels ∧
      quantize value min_val max_val levels ≤ (levels : ℤ) - 1) ∧
    quantize value min_val max_val levels
      = quantize (np_clip value min_val max_val) min_val max_val levels := by
  refine ⟨?_, ?_, ?_, ?_, ?_⟩
  · intro hlt hpos
    have hne : max_val ≠ min_val := ne_of_gt hlt
    have hclip : np_clip min_val min_val max_val = min_val := by
      unfold np_clip
      rw [max_self, min_eq_left (le_of_lt hlt)]
    have hml : (0 : ℤ) ≤ (levels : ℤ) - 1 := by omega
    simp only [quantize, if_neg hne, hclip, sub_self, zero_div, zero_mul]
    have h0 : astype_int 0 = 0 := by
      unfold astype_int
      simp
    rw [h0]
    omega
  · intro hlt hgt
    have hne : max_val ≠ min_val := ne_of_gt hlt
    have hclip : np_clip max_val min_val max_val = max_val := by
      unfold np_clip
      rw [max_eq_left (le_of_lt hlt), min_self]
    have hd : max_val - min_val ≠ 0 := sub_ne_zero_of_ne hne
    have hml : (1 : ℤ) ≤ (levels : ℤ) - 1 := by omega
    simp only [quantize, if_neg hne, hclip, div_self hd, one_mul]
    have h1 : astype_int ((((levels : ℤ) - 1 : ℤ) : ℚ)) = (levels : ℤ) - 1 := by
      unfold astype_int
      rw [if_pos (by exact_mod_cast (by omega : (0:ℤ) ≤ (levels : ℤ) - 1)), Int.floor_intCast]
    rw [h1]
    omega
  · intro heq
    simp only [quantize, if_pos heq]
  · intro hpos
    unfold quantize
    by_cases heq : max_val = min_val
    · simp only [if_pos heq]
      have hml : (0 : ℤ) ≤ (levels : ℤ) - 1 := by omega
      rw [Int.fdiv_eq_ediv _ (by omega : (0:ℤ) ≤ 2)]
      constructor
      · exact Int.ediv_nonneg hml (by omega)
      · exact le_trans (Int.ediv_le_self 2 hml) (le_refl _)
    · simp only [if_neg heq]
      omega
  · unfold quantize
    rw [np_clip_idem]

/-- Witness for `quantize_spec` at `min = 0`, `max = 8`, `levels = 9`,
`value = 5`. -/
theorem quantize_spec_witness :
    ((0 : ℚ) < 8 ∧ 0 < 9 ∧ 1 < 9) ∧
    quantize 0 0 8 9 = 0 ∧ quantize 8 0 8 9 = (9 : ℤ) - 1 ∧
    (0 ≤ quantize 5 0 8 9 ∧ quantize 5 0 8 9 ≤ (9 : ℤ) - 1) := by
  refine ⟨⟨by norm_num, by norm_num, by norm_num⟩, ?_, ?_, ?_⟩
  · exact (quantize_spec 0 0 8 9).1 (by norm_num) (by norm_num)
  · exact (quantize_spec 8 0 8 9).2.1 (by norm_num) (by norm_num)
  · exact (quantize_spec 5 0 8 9).2.2.2.1 (by norm_num)

/-- C8 counterexample: the fill characters at levels 1 and 2 of
`SPARK_CHARS` are the same glyph, so the eight fills are not pairwise
distinct. -/
theorem spark_chars_not_distinct :
    SPARK_CHARS.getD 1 ' ' = SPARK_CHARS.getD 2 ' ' ∧ (1 : ℕ) ≠ 2 := by
  decide

/-- C8 (amended): the single-row sparkline selects each bucket's glyph by
its quantized level from a 9-entry glyph alphabet — a blank at level 0
plus eight fill characters for levels 1–8, all of which are the same
5/8-width block `'▋'` (not pairwise distinct). -/
theorem sparkline_glyph_selection (data : List (Option ℚ)) (width : ℕ)
    (h1 : data ≠ [])
    (h2 : ((if data.length > width then data.drop (data.length - width)
            else data).filterMap id).length ≠ 0) :
    SPARK_CHARS.length = 9 ∧
    SPARK_CHARS.getD 0 ' ' = ' ' ∧
    (∀ n, 1 ≤ n → n ≤ 8 → SPARK_CHARS.getD n ' ' = '▋') ∧
    (∀ n ∈ sparkline_levels data width, n < 9) ∧
    (sparkline data width).data =
      List.replicate (width - (sparkline_levels data width).length) ' '
        ++ (sparkline_levels data width).map (fun n => SPARK_CHARS.getD n ' ') := by
  refine ⟨by decide, by decide, by decide, ?_, ?_⟩
  · intro n hn
    unfold sparkline_levels at hn
    split at hn <;> dsimp only at hn <;> split at hn <;>
      · simp only [List.mem_map] at hn
        obtain ⟨v, _, hv⟩ := hn
        omega
  · have hfull : (data.filterMap id).length ≠ 0 := by
      by_cases hgt : data.length > width
      · simp only [if_pos hgt] at h2
        intro hc
        apply h2
        have hsplit := List.take_append_drop (data.length - width) data
        have : (data.filterMap id).length =
            ((data.take (data.length - width)).filterMap id).length +
            ((data.drop (data.length - width)).filterMap id).length := by
          conv_lhs => rw [← hsplit]
          rw [List.filterMap_append, List.length_append]
        omega
      · simpa only [if_neg hgt] using h2
    have hlen0 : data.length ≠ 0 := by
      intro hc
      exact h1 (List.length_eq_zero.mp hc)
    unfold sparkline
    rw [if_neg hlen0, if_neg hfull, if_neg h2]
    set glyphs := (sparkline_levels data width).map (fun n => SPARK_CHARS.getD n ' ')
      with hg
    have hglen : glyphs.length = (sparkline_levels data width).length := by
      rw [hg, List.length_map]
    by_cases hlt : glyphs.length < width
    · rw [if_pos hlt, ← hglen]
    · rw [if_neg hlt, ← hglen]
      have : width - glyphs.length = 0 := Nat.sub_eq_zero_of_le (Nat.le_of_not_lt hlt)
      rw [this]
      rfl

/-- Witness for `sparkline_glyph_selection` at `data = [some 1, some 2]`,
`width = 3`. -/
theorem sparkline_glyph_selection_witness :
    (([some (1:ℚ), some 2] : List (Option ℚ)) ≠ [] ∧
      ((if ([some (1:ℚ), some 2] : List (Option ℚ)).length > 3 then
          ([some (1:ℚ), some 2] : List (Option ℚ)).drop
            (([some (1:ℚ), some 2] : List (Option ℚ)).length - 3)
        else ([some (1:ℚ), some 2] : List (Option ℚ))).filterMap id).length ≠ 0) ∧
    SPARK_CHARS.length = 9 := by
  refine ⟨⟨by simp, by simp⟩, ?_⟩
  exact (sparkline_glyph_selection [some 1, some 2] 3 (by simp) (by simp)).1

/-- `bucket_by_time(values, timestamps, window_seconds, target_width, now)`
from `charts.py` lines 45–89: resample irregular samples into
`target_width` fixed-duration buckets whose right edge is
`ceil(now / bucket_duration) * bucket_duration`; each bucket holds the
mean of the valid samples falling in it, `none` when empty; empty input
yields all-missing buckets. -/
def bucket_by_time (values : List (Option ℚ)) (timestamps : List ℚ)
    (window_seconds : ℚ) (target_width : ℕ) (now : ℚ) : List (Option ℚ) :=
  if values.length = 0 ∨ timestamps.length = 0 then
    List.replicate target_width none
  else
    let bucket_duration := window_seconds / (target_width : ℚ)
    let window_end := (⌈now / bucket_duration⌉ : ℚ) * bucket_duration
    let window_start := window_end - window_seconds
    (List.range target_width).map (fun (i : ℕ) =>
      let bucket_start := window_start + (i : ℚ) * bucket_duration
      let bucket_end := bucket_start + bucket_duration
      let valid := (((timestamps.zip values).filter
          (fun p => decide (bucket_start ≤ p.1) && decide (p.1 < bucket_end))).map
            Prod.snd).filterMap id
      if valid.length = 0 then none
      else some (valid.sum / (valid.length : ℚ)))

/-- Selecting then projecting the paired samples in a half-open interval
is one `filterMap` over the pairs. -/
lemma filter_snd_filterMap_eq (l : List (ℚ × Option ℚ)) (a b : ℚ) :
    (((l.filter (fun p => decide (a ≤ p.1) && decide (p.1 < b))).map
        Prod.snd).filterMap id)
      = l.filterMap (fun p => if a ≤ p.1 ∧ p.1 < b then p.2 else none) := by
  induction l with
  | nil => rfl
  | cons p t ih =>
    by_cases h : a ≤ p.1 ∧ p.1 < b
    · rw [List.filter_cons, if_pos (by simpa using h)]
      rw [List.map_cons, List.filterMap_cons, List.filterMap_cons, if_pos h]
      cases p.2 <;> simp [ih]
    · rw [List.filter_cons, if_neg (by simpa using h)]
      rw [List.filterMap_cons, if_neg h, ih]

/-- `getD` of a mapped range evaluates the mapped function. -/
lemma getD_map_range {α : Type} (f : ℕ → α) (n i : ℕ) (d : α) (h : i < n) :
    ((List.range n).map f).getD i d = f i := by
  rw [List.getD_eq_getElem?_getD, List.getElem?_map, List.getElem?_range h]
  rfl

/-- C1: for paired inputs of equal length, every positive window, every
positive bucket count and every `now`, `bucket_by_time` returns exactly
`target_width` buckets; for empty input all buckets are missing; and
bucket `i` is the arithmetic mean of the non-missing samples whose
timestamp lies in `[window_start + i·d, window_start + (i+1)·d)` with
`d = window_seconds / target_width` and
`window_start = ⌈now/d⌉·d - window_seconds`, or missing when no sample
falls there. -/
theorem bucket_by_time_spec (values : List (Option ℚ)) (timestamps : List ℚ)
    (hlen : values.length = timestamps.length)
    (window_seconds : ℚ) (hw : 0 < window_seconds)
    (target_width : ℕ) (hB : 0 < target_width) (now : ℚ) :
    (bucket_by_time values timestamps window_seconds target_width now).length
      = target_width ∧
    (values = [] →
      bucket_by_time values timestamps window_seconds target_width now
        = List.replicate target_width none) ∧
    (∀ i, i < target_width →
      (bucket_by_time values timestamps window_seconds target_width now).getD i none
        = (let d := window_seconds / (target_width : ℚ)
           let window_start := (⌈now / d⌉ : ℚ) * d - window_seconds
           let samples := (timestamps.zip values).filterMap (fun p =>
             if window_start + (i : ℚ) * d ≤ p.1 ∧
                p.1 < window_start + ((i : ℚ) + 1) * d then p.2 else none)
           if samples = [] then none
           else some (samples.sum / (samples.length : ℚ)))) := by
  refine ⟨?_, ?_, ?_⟩
  · unfold bucket_by_time
    split
    · rw [List.length_replicate]
    · rw [List.length_map, List.length_range]
  · intro hv
    unfold bucket_by_time
    rw [if_pos (Or.inl (by simp [hv]))]
  · intro i hi
    by_cases hdeg : values.length = 0 ∨ timestamps.length = 0
    · have hv : values = [] := by
        rcases hdeg with h | h
        · exact List.length_eq_zero.mp h
        · exact List.length_eq_zero.mp (hlen.trans h)
      have ht : timestamps = [] := by
        rcases hdeg with h | h
        · exact List.length_eq_zero.mp (hlen.symm.trans h)
        · exact List.length_eq_zero.mp h
      subst hv
      subst ht
      simp [bucket_by_time, List.getD_eq_getElem?_getD, hi]
    · unfold bucket_by_time
      rw [if_neg hdeg]
      set d := window_seconds / (target_width : ℚ) with hd
      set ws := (⌈now / d⌉ : ℚ) * d - window_seconds with hws
      rw [getD_map_range _ _ _ _ hi]
      dsimp only
      rw [filter_snd_filterMap_eq]
      have hfun : (fun p : ℚ × Option ℚ =>
            if ws + (i : ℚ) * d ≤ p.1 ∧ p.1 < ws + (i : ℚ) * d + d
            then p.2 else none)
          = (fun p : ℚ × Option ℚ =>
            if ws + (i : ℚ) * d ≤ p.1 ∧ p.1 < ws + ((i : ℚ) + 1) * d
            then p.2 else none) := by
        funext p
        have he : ws + (i : ℚ) * d + d = ws + ((i : ℚ) + 1) * d := by ring
        rw [he]
      rw [hfun]
      split
    -- remaining: guard forms `length = 0` vs `= []`
      · next hnil =>
          rw [if_pos (List.length_eq_zero.mp hnil)]
      · next hnil =>
          rw [if_neg (fun hc => hnil (by rw [hc]; rfl))]

/-- Witness for `bucket_by_time_spec` at one sample `(t = 3, v = 4)`,
window 10, two buckets, `now = 7`. -/
theorem bucket_by_time_spec_witness :
    (([some (4:ℚ)] : List (Option ℚ)).length = [(3:ℚ)].length ∧
      (0 : ℚ) < 10 ∧ 0 < 2) ∧
    (bucket_by_time [some 4] [3] 10 2 7).length = 2 := by
  refine ⟨⟨rfl, by norm_num, by norm_num⟩, ?_⟩
  exact (bucket_by_time_spec [some 4] [3] rfl 10 (by norm_num) 2
    (by norm_num) 7).1

/-- One entry of `config.ping_hosts` (`ping.py` lines 52–61): host name,
display label, enabled flag, the per-host history and failure arrays
aligned to the store's tick count, and the cross-thread `latest` scalar. -/
structure HostInfo where
  host : String
  label : String
  enabled : Bool
  data : List (Option ℚ)
  failed : List Bool
  latest : Option ℚ
deriving DecidableEq

instance : Inhabited HostInfo :=
  ⟨{ host := "", label := "", enabled := false, data := [], failed := [],
     latest := none }⟩

/-- The module-level aligned arrays of `config.py` lines 27–40 that
`LiveView.collect_data` appends to. -/
structure Store where
  time_data : List ℚ
  signal_data : List (Option ℚ)
  rx_rate_data : List (Option ℚ)
  tx_rate_data : List (Option ℚ)
  bandwidth_data : List (Option ℚ)
  signal_failed : List Bool
  rates_failed : List Bool
  bandwidth_failed : List Bool
  ping_hosts : List HostInfo
deriving DecidableEq

/-- All store arrays (including every ping host's history and failure
arrays) have the same length as the time array. -/
def Store.alignedB (s : Store) : Bool :=
  let n := s.time_data.length
  (s.signal_data.length == n) && (s.rx_rate_data.length == n) &&
  (s.tx_rate_data.length == n) && (s.bandwidth_data.length == n) &&
  (s.signal_failed.length == n) && (s.rates_failed.length == n) &&
  (s.bandwidth_failed.length == n) &&
  s.ping_hosts.all (fun h => (h.data.length == n) && (h.failed.length == n))

/-- `LiveView.collect_data` (`live_view.py` lines 31–91): when not
paused, append the probed link values (missing when the probe returned
`None`) plus their failure flags, append each ping host's `latest`
value, then drop the oldest `trim` entries from every array when the
time array exceeds `max_points`. -/
def collect_data (paused : Bool) (max_points : ℕ) (now : ℚ)
    (signal rx_rate tx_rate bandwidth : Option ℚ) (s : Store) : Store :=
  if paused then s
  else
    let s1 : Store :=
      { time_data := s.time_data ++ [now]
        signal_data := s.signal_data ++ [signal]
        rx_rate_data := s.rx_rate_data ++ [rx_rate]
        tx_rate_data := s.tx_rate_data ++ [tx_rate]
        bandwidth_data := s.bandwidth_data ++ [bandwidth]
        signal_failed := s.signal_failed ++ [signal.isNone]
        rates_failed := s.rates_failed ++ [rx_rate.isNone]
        bandwidth_failed := s.bandwidth_failed ++ [bandwidth.isNone]
        ping_hosts := s.ping_hosts.map (fun h =>
          { h with data := h.data ++ [h.latest],
                   failed := h.failed ++ [h.latest.isNone] }) }
    if s1.time_data.length > max_points then
      let trim := s1.time_data.length - max_points
      { time_data := s1.time_data.drop trim
        signal_data := s1.signal_data.drop trim
        rx_rate_data := s1.rx_rate_data.drop trim
        tx_rate_data := s1.tx_rate_data.drop trim
        bandwidth_data := s1.bandwidth_data.drop trim
        signal_failed := s1.signal_failed.drop trim
        rates_failed := s1.rates_failed.drop trim
        bandwidth_failed := s1.bandwidth_failed.drop trim
        ping_hosts := s1.ping_hosts.map (fun h =>
          { h with data := h.data.drop trim, failed := h.failed.drop trim }) }
    else s1

/-- `add_ping_host(host, label)` (`ping.py` lines 41–66): build the host
record with a history of `len(config.time_data)` missing entries and
all-raised failure flags, append it to the host list, and return it. -/
def add_ping_host (host : String) (label : Option String) (s : Store) :
    HostInfo × Store :=
  let current_len := s.time_data.length
  let host_info : HostInfo :=
    { host := host
      label := label.getD host
      enabled := true
      data := List.replicate current_len none
      failed := List.replicate current_len true
      latest := none }
  (host_info, { s with ping_hosts := s.ping_hosts ++ [host_info] })

/-- `remove_ping_host(index)` (`ping.py` lines 69–73): only for an index
in `[0, len(hosts))` disable that host's record and pop it from the
list; the popped (now disabled) record is returned as the second
component to make the in-place mutation observable. -/
def remove_ping_host (index : ℤ) (hosts : List HostInfo) :
    List HostInfo × Option HostInfo :=
  if h : 0 ≤ index ∧ index < (hosts.length : ℤ) then
    have hi : index.toNat < hosts.length := by omega
    let disabled := { hosts.get ⟨index.toNat, hi⟩ with enabled := false }
    ((hosts.set index.toNat disabled).eraseIdx index.toNat, some disabled)
  else (hosts, none)

/-- One entry of the `hosts_data` list returned by
`LiveView.get_windowed_data` (`live_view.py` lines 119–132). -/
structure HostData where
  label : String
  data : List (Option ℚ)
  latest : Option ℚ
deriving DecidableEq

instance : Inhabited HostData := ⟨{ label := "", data := [], latest := none }⟩

/-- The tuple returned by `LiveView.get_windowed_data`
(`live_view.py` line 134), in source order. -/
structure WindowedData where
  signal_data : List (Option ℚ)
  time_data : List ℚ
  rx_data : List (Option ℚ)
  tx_data : List (Option ℚ)
  hosts_data : List HostData
deriving DecidableEq

/-- NumPy boolean-mask indexing `arr[mask]` for equal-length `mask` and
`arr`. -/
def np_mask {α : Type} (mask : List Bool) (arr : List α) : List α :=
  ((mask.zip arr).filter (fun p => p.1)).map Prod.snd

/-- `LiveView.get_windowed_data(now)` (`live_view.py` lines 93–134):
empty results for an empty time array; otherwise build the time mask
(`time >= now - window`, or all-true for the unbounded window) and apply
it to each array, but only after re-checking that the array's length
equals the mask length — an array that disagrees yields an empty result
instead of an indexing error. -/
def get_windowed_data (s : Store) (now : ℚ) (window_seconds : Option ℚ) :
    WindowedData :=
  if s.time_data.length = 0 then
    { signal_data := [], time_data := [], rx_data := [], tx_data := [],
      hosts_data := [] }
  else
    let time_arr := s.time_data
    let mask : List Bool :=
      match window_seconds with
      | none => time_arr.map (fun _ => true)
      | some w => time_arr.map (fun t => decide (now - w ≤ t))
    let mask_len := mask.length
    { signal_data :=
        if s.signal_data.length = mask_len then np_mask mask s.signal_data
        else []
      time_data := np_mask mask time_arr
      rx_data :=
        if s.rx_rate_data.length = mask_len then np_mask mask s.rx_rate_data
        else []
      tx_data :=
        if s.tx_rate_data.length = mask_len then np_mask mask s.tx_rate_data
        else []
      hosts_data := s.ping_hosts.map (fun h =>
        { label := h.label
          data := if h.data.length = mask_len then np_mask mask h.data else []
          latest := h.latest }) }

/-- Unfolding of the alignment check into propositional equalities. -/
lemma alignedB_iff (s : Store) : s.alignedB = true ↔
    (s.signal_data.length = s.time_data.length ∧
     s.rx_rate_data.length = s.time_data.length ∧
     s.tx_rate_data.length = s.time_data.length ∧
     s.bandwidth_data.length = s.time_data.length ∧
     s.signal_failed.length = s.time_data.length ∧
     s.rates_failed.length = s.time_data.length ∧
     s.bandwidth_failed.length = s.time_data.length ∧
     ∀ x ∈ s.ping_hosts, x.data.length = s.time_data.length ∧
       x.failed.length = s.time_data.length) := by
  simp only [Store.alignedB, Bool.and_eq_true, beq_iff_eq, List.all_eq_true,
    decide_eq_true_eq]
  tauto

/-- C2: starting from an aligned store, one unpaused `collect_data` call
leaves the store aligned again; and whenever no trim is triggered the
call appends exactly one entry to every array — the probed value (or a
missing entry) plus the corresponding `isNone` failure flag, and each
ping host's `latest` value plus its `isNone` flag. -/
theorem collect_data_tick (s : Store) (max_points : ℕ) (now : ℚ)
    (signal rx_rate tx_rate bandwidth : Option ℚ)
    (h : s.alignedB = true) :
    (collect_data false max_points now signal rx_rate tx_rate bandwidth
      s).alignedB = true ∧
    (s.time_data.length + 1 ≤ max_points →
      collect_data false max_points now signal rx_rate tx_rate bandwidth s =
        { time_data := s.time_data ++ [now]
          signal_data := s.signal_data ++ [signal]
          rx_rate_data := s.rx_rate_data ++ [rx_rate]
          tx_rate_data := s.tx_rate_data ++ [tx_rate]
          bandwidth_data := s.bandwidth_data ++ [bandwidth]
          signal_failed := s.signal_failed ++ [signal.isNone]
          rates_failed := s.rates_failed ++ [rx_rate.isNone]
          bandwidth_failed := s.bandwidth_failed ++ [bandwidth.isNone]
          ping_hosts := s.ping_hosts.map (fun x =>
            { x with data := x.data ++ [x.latest],
                     failed := x.failed ++ [x.latest.isNone] }) }) := by
  rw [alignedB_iff] at h
  obtain ⟨h1, h2, h3, h4, h5, h6, h7, hh⟩ := h
  constructor
  · unfold collect_data
    rw [if_neg (by simp)]
    dsimp only
    split
    · next htrim =>
        rw [alignedB_iff]
        simp only [List.length_drop, List.length_append, List.length_map,
          List.mem_map, List.length_cons, List.length_nil]
        refine ⟨by omega, by omega, by omega, by omega, by omega, by omega,
          by omega, ?_⟩
        rintro x ⟨y, ⟨a, ha, rfl⟩, rfl⟩
        obtain ⟨hy1, hy2⟩ := hh a ha
        constructor <;>
          · simp only [List.length_drop, List.length_append, List.length_cons,
              List.length_nil]
            omega
    · next htrim =>
        rw [alignedB_iff]
        simp only [List.length_append, List.length_cons, List.length_nil,
          List.mem_map]
        refine ⟨by omega, by omega, by omega, by omega, by omega, by omega,
          by omega, ?_⟩
        rintro x ⟨y, hy, rfl⟩
        obtain ⟨hy1, hy2⟩ := hh y hy
        constructor <;>
          · simp only [List.length_append, List.length_cons, List.length_nil]
            omega
  · intro hle
    unfold collect_data
    rw [if_neg (by simp)]
    dsimp only
    rw [if_neg (by simp only [List.length_append, List.length_cons,
      List.length_nil]; omega)]

/-- A small concrete aligned store used to instantiate the store
theorems. -/
def sample_store : Store :=
  { time_data := [1]
    signal_data := [some 2]
    rx_rate_data := [none]
    tx_rate_data := [some 3]
    bandwidth_data := [none]
    signal_failed := [false]
    rates_failed := [true]
    bandwidth_failed := [true]
    ping_hosts := [{ host := "gw", label := "gateway", enabled := true,
                     data := [some 5], failed := [false], latest := some 6 }] }

/-- Witness for `collect_data_tick` on `sample_store`. -/
theorem collect_data_tick_witness :
    sample_store.alignedB = true ∧
    (collect_data false 100 7 (some 8) none (some 9) none
      sample_store).alignedB = true := by
  refine ⟨by decide, ?_⟩
  exact (collect_data_tick sample_store 100 7 (some 8) none (some 9) none
    (by decide)).1

/-- C3: a tick that carries the store past the retention ceiling `N`
drops the same count `trim = len+1-N` of oldest entries from every
array in the same operation; afterwards every array holds exactly the
last `N` appended entries, in order, and the store is aligned with time
length exactly `N`. -/
theorem collect_data_retention (s : Store) (N : ℕ) (now : ℚ)
    (signal rx_rate tx_rate bandwidth : Option ℚ)
    (h : s.alignedB = true) (hN : N ≤ s.time_data.length) :
    (collect_data false N now signal rx_rate tx_rate bandwidth s).time_data
        = (s.time_data ++ [now]).drop (s.time_data.length + 1 - N) ∧
    (collect_data false N now signal rx_rate tx_rate bandwidth s).signal_data
        = (s.signal_data ++ [signal]).drop (s.time_data.length + 1 - N) ∧
    (collect_data false N now signal rx_rate tx_rate bandwidth s).rx_rate_data
        = (s.rx_rate_data ++ [rx_rate]).drop (s.time_data.length + 1 - N) ∧
    (collect_data false N now signal rx_rate tx_rate bandwidth s).tx_rate_data
        = (s.tx_rate_data ++ [tx_rate]).drop (s.time_data.length + 1 - N) ∧
    (collect_data false N now signal rx_rate tx_rate bandwidth s).bandwidth_data
        = (s.bandwidth_data ++ [bandwidth]).drop (s.time_data.length + 1 - N) ∧
    (collect_data false N now signal rx_rate tx_rate bandwidth s).signal_failed
        = (s.signal_failed ++ [signal.isNone]).drop (s.time_data.length + 1 - N) ∧
    (collect_data false N now signal rx_rate tx_rate bandwidth s).rates_failed
        = (s.rates_failed ++ [rx_rate.isNone]).drop (s.time_data.length + 1 - N) ∧
    (collect_data false N now signal rx_rate tx_rate bandwidth s).bandwidth_failed
        = (s.bandwidth_failed ++ [bandwidth.isNone]).drop (s.time_data.length + 1 - N) ∧
    (collect_data false N now signal rx_rate tx_rate bandwidth s).ping_hosts
        = s.ping_hosts.map (fun x =>
            { x with
              data := (x.data ++ [x.latest]).drop (s.time_data.length + 1 - N),
              failed := (x.failed ++ [x.latest.isNone]).drop
                (s.time_data.length + 1 - N) }) ∧
    (collect_data false N now signal rx_rate tx_rate bandwidth s).time_data.length
        = N ∧
    (collect_data false N now signal rx_rate tx_rate bandwidth
      s).alignedB = true := by
  have halign := (collect_data_tick s N now signal rx_rate tx_rate bandwidth h).1
  have htrim : (s.time_data ++ [now]).length > N := by
    simp only [List.length_append, List.length_cons, List.length_nil]
    omega
  have hbody : collect_data false N now signal rx_rate tx_rate bandwidth s =
      { time_data := (s.time_data ++ [now]).drop (s.time_data.length + 1 - N)
        signal_data := (s.signal_data ++ [signal]).drop (s.time_data.length + 1 - N)
        rx_rate_data := (s.rx_rate_data ++ [rx_rate]).drop (s.time_data.length + 1 - N)
        tx_rate_data := (s.tx_rate_data ++ [tx_rate]).drop (s.time_data.length + 1 - N)
        bandwidth_data := (s.bandwidth_data ++ [bandwidth]).drop
          (s.time_data.length + 1 - N)
        signal_failed := (s.signal_failed ++ [signal.isNone]).drop
          (s.time_data.length + 1 - N)
        rates_failed := (s.rates_failed ++ [rx_rate.isNone]).drop
          (s.time_data.length + 1 - N)
        bandwidth_failed := (s.bandwidth_failed ++ [bandwidth.isNone]).drop
          (s.time_data.length + 1 - N)
        ping_hosts := s.ping_hosts.map (fun x =>
          { x with
            data := (x.data ++ [x.latest]).drop (s.time_data.length + 1 - N),
            failed := (x.failed ++ [x.latest.isNone]).drop
              (s.time_data.length + 1 - N) }) } := by
    unfold collect_data
    rw [if_neg (by simp)]
    dsimp only
    rw [if_pos htrim]
    have hlen : (s.time_data ++ [now]).length - N = s.time_data.length + 1 - N := by
      simp only [List.length_append, List.length_cons, List.length_nil]
    rw [hlen, List.map_map]
    rfl
  refine ⟨?_, ?_, ?_, ?_, ?_, ?_, ?_, ?_, ?_, ?_, halign⟩ <;>
    rw [hbody] <;>
    first
      | rfl
      | (simp only [List.length_drop, List.length_append, List.length_cons,
            List.length_nil]
         omega)

/-- Witness for `collect_data_retention`: `sample_store` holds one tick
and the ceiling is 1, so the tick that would reach length 2 trims back
to exactly 1. -/
theorem collect_data_retention_witness :
    (sample_store.alignedB = true ∧ 1 ≤ sample_store.time_data.length) ∧
    (collect_data false 1 7 (some 8) none (some 9) none
      sample_store).time_data.length = 1 := by
  refine ⟨⟨by decide, by decide⟩, ?_⟩
  exact (collect_data_retention sample_store 1 7 (some 8) none (some 9) none
    (by decide) (by decide)).2.2.2.2.2.2.2.2.2.1

/-- C4: `add_ping_host` returns a handle whose history has exactly as
many entries as the store's time array, all missing (`none` with failure
flag `true`), with no sample yet, and appends the handle to the host
list. -/
theorem add_ping_host_backfill (host : String) (label : Option String)
    (s : Store) :
    (add_ping_host host label s).1.data
        = List.replicate s.time_data.length none ∧
    (add_ping_host host label s).1.failed
        = List.replicate s.time_data.length true ∧
    (add_ping_host host label s).1.data.length = s.time_data.length ∧
    (add_ping_host host label s).1.latest = none ∧
    (add_ping_host host label s).2.ping_hosts
        = s.ping_hosts ++ [(add_ping_host host label s).1] :=
  ⟨rfl, rfl, by simp [add_ping_host], rfl, rfl⟩

/-- `eraseIdx` at an index ignores a previous `set` at the same index. -/
lemma eraseIdx_set {α : Type} (l : List α) (i : ℕ) (x : α) :
    (l.set i x).eraseIdx i = l.eraseIdx i := by
  induction l generalizing i with
  | nil => rfl
  | cons a t ih =>
    cases i with
    | zero => rfl
    | succ n => simp only [List.set_cons_succ, List.eraseIdx_cons_succ, ih]

/-- C10: `remove_ping_host` with an out-of-range index leaves the host
list unchanged (and raises nothing); with a valid index it disables
exactly that host and removes exactly that entry, leaving every other
host unchanged. -/
theorem remove_ping_host_spec (index : ℤ) (hosts : List HostInfo) :
    ((index < 0 ∨ (hosts.length : ℤ) ≤ index) →
      remove_ping_host index hosts = (hosts, none)) ∧
    (∀ h : 0 ≤ index ∧ index < (hosts.length : ℤ),
      (remove_ping_host index hosts).1
          = hosts.take index.toNat ++ hosts.drop (index.toNat + 1) ∧
      (remove_ping_host index hosts).2
          = some { hosts.get ⟨index.toNat, by omega⟩ with enabled := false }) := by
  constructor
  · intro hout
    unfold remove_ping_host
    rw [dif_neg (by omega)]
  · intro h
    unfold remove_ping_host
    rw [dif_pos h]
    refine ⟨?_, rfl⟩
    dsimp only
    rw [eraseIdx_set, List.eraseIdx_eq_take_drop_succ]

/-- Witness for `remove_ping_host_spec`: index 5 on a one-host list is a
no-op; index 0 removes the only host. -/
theorem remove_ping_host_spec_witness :
    (((5:ℤ) < 0 ∨ (([(default : HostInfo)] : List HostInfo).length : ℤ) ≤ 5) ∧
      remove_ping_host 5 [(default : HostInfo)]
        = ([(default : HostInfo)], none)) ∧
    ((0:ℤ) ≤ 0 ∧ (0:ℤ) < (([(default : HostInfo)] : List HostInfo).length : ℤ)) ∧
    (remove_ping_host 0 [(default : HostInfo)]).1 = [] := by
  refine ⟨⟨by simp, ?_⟩, ⟨le_refl 0, by simp⟩, ?_⟩
  · exact (remove_ping_host_spec 5 [(default : HostInfo)]).1 (by simp)
  · have hvalid := (remove_ping_host_spec 0 [(default : HostInfo)]).2
      ⟨le_refl 0, by simp⟩
    simpa using hvalid.1

/-- C5: `get_windowed_data` is total and length-guarded: whenever the
signal, rx-rate, tx-rate or a ping host's array disagrees in length with
the time array (from which the filter mask is built), the corresponding
component of the result is empty instead of an indexing error. -/
theorem get_windowed_data_guard (s : Store) (now : ℚ) (w : Option ℚ) :
    ((s.signal_data.length ≠ s.time_data.length) →
      (get_windowed_data s now w).signal_data = []) ∧
    ((s.rx_rate_data.length ≠ s.time_data.length) →
      (get_windowed_data s now w).rx_data = []) ∧
    ((s.tx_rate_data.length ≠ s.time_data.length) →
      (get_windowed_data s now w).tx_data = []) ∧
    (∀ i, i < s.ping_hosts.length →
      (s.ping_hosts.getD i default).data.length ≠ s.time_data.length →
      ((get_windowed_data s now w).hosts_data.getD i default).data = []) := by
  by_cases ht : s.time_data.length = 0
  · refine ⟨fun _ => ?_, fun _ => ?_, fun _ => ?_, fun i hi hne => ?_⟩ <;>
      · unfold get_windowed_data
        rw [if_pos ht]
        try rfl
  · have hmask : (match w with
        | none => s.time_data.map (fun _ => true)
        | some w' => s.time_data.map (fun t => decide (now - w' ≤ t))).length
          = s.time_data.length := by
      cases w <;> simp
    refine ⟨fun hne => ?_, fun hne => ?_, fun hne => ?_, fun i hi hne => ?_⟩
    · unfold get_windowed_data
      rw [if_neg ht]
      dsimp only
      rw [if_neg (fun hc => hne (hc.trans hmask))]
    · unfold get_windowed_data
      rw [if_neg ht]
      dsimp only
      rw [if_neg (fun hc => hne (hc.trans hmask))]
    · unfold get_windowed_data
      rw [if_neg ht]
      dsimp only
      rw [if_neg (fun hc => hne (hc.trans hmask))]
    · have hgetd : s.ping_hosts.getD i default = s.ping_hosts.get ⟨i, hi⟩ := by
        rw [List.getD_eq_getElem?_getD, List.getElem?_eq_getElem hi]
        rfl
      unfold get_windowed_data
      rw [if_neg ht]
      rw [List.getD_eq_getElem?_getD, List.getElem?_map,
        List.getElem?_eq_getElem hi]
      simp only [Option.map_some', Option.getD_some]
      rw [if_neg (fun hc => hne (by rw [hgetd]; exact hc.trans hmask))]

/-- A store caught mid-append: the time array has two ticks but the
signal array and the ping host's history still have one entry. -/
def racing_store : Store :=
  { time_data := [1, 2]
    signal_data := [some 3]
    rx_rate_data := [none, none]
    tx_rate_data := [some 4, none]
    bandwidth_data := [none, none]
    signal_failed := [false, false]
    rates_failed := [true, true]
    bandwidth_failed := [true, true]
    ping_hosts := [{ host := "gw", label := "gateway", enabled := true,
                     data := [some 5], failed := [false], latest := some 6 }] }

/-- Witness for `get_windowed_data_guard` on `racing_store`: the shorter
signal and ping arrays yield empty results. -/
theorem get_windowed_data_guard_witness :
    (racing_store.signal_data.length ≠ racing_store.time_data.length ∧
      0 < racing_store.ping_hosts.length ∧
      (racing_store.ping_hosts.getD 0 default).data.length
        ≠ racing_store.time_data.length) ∧
    (get_windowed_data racing_store 0 none).signal_data = [] ∧
    ((get_windowed_data racing_store 0 none).hosts_data.getD 0 default).data
      = [] := by
  refine ⟨⟨by decide, by decide, by decide⟩, ?_, ?_⟩
  · exact (get_windowed_data_guard racing_store 0 none).1 (by decide)
  · exact (get_windowed_data_guard racing_store 0 none).2.2.2 0 (by decide)
      (by decide)

/-- `CHANNELS_2_4GHZ = list(range(1, 15))` from `scanner.py` line 11. -/
def CHANNELS_2_4GHZ : List ℕ := List.range' 1 14

/-- The fixed non-contiguous 25-entry 5GHz channel list from
`scanner.py` lines 12–16. -/
def CHANNELS_5GHZ : List ℕ :=
  [36, 40, 44, 48, 52, 56, 60, 64,
   100, 104, 108, 112, 116, 120, 124, 128, 132, 136, 140, 144,
   149, 153, 157, 161, 165]

/-- `FREQ_TO_CHANNEL_5GHZ` from `scanner.py` lines 19–26. -/
def FREQ_TO_CHANNEL_5GHZ : List (ℤ × ℕ) :=
  [(5180, 36), (5200, 40), (5220, 44), (5240, 48),
   (5260, 52), (5280, 56), (5300, 60), (5320, 64),
   (5500, 100), (5520, 104), (5540, 108), (5560, 112),
   (5580, 116), (5600, 120), (5620, 124), (5640, 128),
   (5660, 132), (5680, 136), (5700, 140), (5720, 144),
   (5745, 149), (5765, 153), (5785, 157), (5805, 161), (5825, 165)]

/-- `FREQ_TO_CHANNEL_2_4GHZ` from `scanner.py` lines 29–32. -/
def FREQ_TO_CHANNEL_2_4GHZ : List (ℤ × ℕ) :=
  [(2412, 1), (2417, 2), (2422, 3), (2427, 4), (2432, 5), (2437, 6),
   (2442, 7), (2447, 8), (2452, 9), (2457, 10), (2462, 11), (2467, 12),
   (2472, 13), (2484, 14)]

/-- `freq_to_channel(freq_mhz)` (`scanner.py` lines 35–42): truncate the
frequency to an integer, look it up first in the 5GHz and then in the
2.4GHz table, `none` when unmapped. -/
def freq_to_channel (freq_mhz : ℚ) : Option ℕ :=
  let freq_int := astype_int freq_mhz
  match FREQ_TO_CHANNEL_5GHZ.lookup freq_int with
  | some c => some c
  | none =>
    match FREQ_TO_CHANNEL_2_4GHZ.lookup freq_int with
    | some c => some c
    | none => none

/-- `get_channels_for_band(band)` (`scanner.py` lines 45–49). -/
def get_channels_for_band (band : String) : List ℕ :=
  if band = "5" then CHANNELS_5GHZ else CHANNELS_2_4GHZ

/-- Per-channel aggregate of one scan snapshot: occupancy count plus the
gathered network names. -/
structure ChannelData where
  count : ℕ
  networks : List String
deriving DecidableEq

/-- The channel → data mapping of a snapshot, keyed by channel number
(insertion order = the fixed channel list). -/
abbrev ChannelMap := List (ℕ × ChannelData)

/-- One `iw scan dump` output line after the regex classification done
by `scan_channels` (`scanner.py` lines 124–163): a `BSS ` record
marker, a `freq:` line, a `DS Parameter set: channel` line, an `SSID:`
line carrying its raw text, or any other line. -/
inductive ScanLine where
  | bss (id : String)
  | freq (f : ℚ)
  | channel (c : ℕ)
  | ssid (s : String)
  | other
deriving DecidableEq

/-- The channel resolution at a record flush (`scanner.py` lines
129–132 and 166–168): prefer the DS Parameter channel, fall back to a
frequency lookup. -/
def resolve_channel (current_channel : Option ℕ) (current_freq : Option ℚ) :
    Option ℕ :=
  match current_channel with
  | some c => some c
  | none =>
    match current_freq with
    | some f => freq_to_channel f
    | none => none

/-- Point update of a `ChannelMap` (the model of
`channels[final_channel]["count"] += 1` etc.; touches no other key and
adds none). -/
def map_update (m : ChannelMap) (ch : ℕ) (f : ChannelData → ChannelData) :
    ChannelMap :=
  m.map (fun p => if p.1 = ch then (p.1, f p.2) else p)

/-- Flushing the in-progress BSS record into the aggregate
(`scanner.py` lines 129–137 and 166–173): resolve the channel; if it is
one of the snapshot's keys, bump its count and append the pending
non-empty SSID; otherwise change nothing. -/
def flush_record (channels : ChannelMap) (current_channel : Option ℕ)
    (current_freq : Option ℚ) (current_ssid : Option String) : ChannelMap :=
  match resolve_channel current_channel current_freq with
  | some c =>
    if (channels.lookup c).isSome then
      map_update channels c (fun d =>
        { count := d.count + 1
          networks :=
            match current_ssid with
            | some s => if s = "" then d.networks else d.networks ++ [s]
            | none => d.networks })
    else channels
  | none => channels

/-- The parser state of the line loop in `scan_channels`. -/
structure ParseState where
  channels : ChannelMap
  current_channel : Option ℕ
  current_freq : Option ℚ
  current_ssid : Option String
deriving DecidableEq

/-- One line step of `scan_channels` (`scanner.py` lines 124–163): a
`BSS ` marker flushes the previous record and resets the per-record
state; `freq:`/`DS Parameter set:` lines record the fallback frequency
and preferred channel; a non-empty stripped SSID is remembered; other
lines change nothing. -/
def parse_line (st : ParseState) (line : ScanLine) : ParseState :=
  match line with
  | .bss _ =>
    { channels := flush_record st.channels st.current_channel st.current_freq
        st.current_ssid
      current_channel := none
      current_freq := none
      current_ssid := none }
  | .freq f => { st with current_freq := some f }
  | .channel c => { st with current_channel := some c }
  | .ssid s =>
    let s' := s.trim
    if s' = "" then st else { st with current_ssid := some s' }
  | .other => st

/-- The final per-channel pass of `scan_channels` (`scanner.py` lines
176–178): deduplicate the network names and, when any name was seen,
replace the count by the number of distinct names. -/
def dedup_pass (channels : ChannelMap) : ChannelMap :=
  channels.map (fun p =>
    let nets := p.2.networks.dedup
    (p.1, { count := if nets.length = 0 then p.2.count else nets.length
            networks := nets }))

/-- The parsing/aggregation core of `scan_channels(interface, band)`
(`scanner.py` lines 100–184), applied to the classified dump lines:
initialize one entry per channel of the band, fold the line loop, flush
the last record, deduplicate. -/
def scan_channels (band : String) (lines : List ScanLine) : ChannelMap :=
  let channel_list := get_channels_for_band band
  let init : ParseState :=
    { channels := channel_list.map (fun c => (c, ⟨0, []⟩))
      current_channel := none
      current_freq := none
      current_ssid := none }
  let st := lines.foldl parse_line init
  dedup_pass (flush_record st.channels st.current_channel st.current_freq
    st.current_ssid)

/-- `map_update` touches only the value at its key: the key list is
unchanged. -/
lemma keys_map_update (m : ChannelMap) (ch : ℕ) (f : ChannelData → ChannelData) :
    (map_update m ch f).map Prod.fst = m.map Prod.fst := by
  unfold map_update
  rw [List.map_map]
  apply List.map_congr_left
  intro p _
  by_cases h : p.1 = ch <;> simp [Function.comp, h]

/-- Flushing a record never changes a snapshot's key list. -/
lemma keys_flush_record (channels : ChannelMap) (cc : Option ℕ)
    (cf : Option ℚ) (cs : Option String) :
    (flush_record channels cc cf cs).map Prod.fst = channels.map Prod.fst := by
  unfold flush_record
  cases hres : resolve_channel cc cf with
  | none => rfl
  | some c =>
    dsimp only
    by_cases h : (channels.lookup c).isSome = true
    · rw [if_pos h, keys_map_update]
    · rw [if_neg h]

/-- One parser step never changes the key list. -/
lemma keys_parse_line (st : ParseState) (line : ScanLine) :
    (parse_line st line).channels.map Prod.fst = st.channels.map Prod.fst := by
  cases line with
  | bss id =>
    exact keys_flush_record st.channels st.current_channel st.current_freq
      st.current_ssid
  | freq f => rfl
  | channel c => rfl
  | ssid s =>
    dsimp only [parse_line]
    split <;> rfl
  | other => rfl

/-- The whole line loop never changes the key list. -/
lemma keys_foldl_parse (lines : List ScanLine) :
    ∀ st : ParseState,
      (lines.foldl parse_line st).channels.map Prod.fst
        = st.channels.map Prod.fst := by
  induction lines with
  | nil => intro st; rfl
  | cons l t ih =>
    intro st
    rw [List.foldl_cons, ih, keys_parse_line]

/-- The dedup pass never changes the key list. -/
lemma keys_dedup_pass (channels : ChannelMap) :
    (dedup_pass channels).map Prod.fst = channels.map Prod.fst := by
  unfold dedup_pass
  rw [List.map_map]
  apply List.map_congr_left
  intro p _
  rfl

/-- C9: every snapshot built by `scan_channels` has exactly the fixed
channel list of its band as its key list (channels 1–14 for 2.4GHz, the
fixed 25-entry list for 5GHz); and a record whose resolved channel is
not one of the snapshot's keys flushes to nothing — no key added, no
count, no network name. -/
theorem scan_channels_keyset (band : String) (lines : List ScanLine) :
    (scan_channels band lines).map Prod.fst = get_channels_for_band band ∧
    (∀ (channels : ChannelMap) (cc : Option ℕ) (cf : Option ℚ)
       (cs : Option String) (c : ℕ),
       resolve_channel cc cf = some c → channels.lookup c = none →
       flush_record channels cc cf cs = channels) ∧
    CHANNELS_2_4GHZ = [1, 2, 3, 4, 5, 6, 7, 8, 9, 10, 11, 12, 13, 14] ∧
    CHANNELS_5GHZ.length = 25 := by
  refine ⟨?_, ?_, by decide, by decide⟩
  · unfold scan_channels
    dsimp only
    rw [keys_dedup_pass, keys_flush_record, keys_foldl_parse]
    dsimp only
    rw [List.map_map]
    have hid : (Prod.fst ∘ fun c : ℕ => (c, ({ count := 0, networks := [] } : ChannelData)))
        = id := rfl
    rw [hid, List.map_id]
  · intro channels cc cf cs c hres hlook
    unfold flush_record
    rw [hres]
    dsimp only
    rw [hlook]
    rfl

/-- Witness for `scan_channels_keyset`: a 5GHz channel (36) resolved
during a 2.4GHz snapshot flushes to nothing, and the empty dump yields
exactly the 2.4GHz key list. -/
theorem scan_channels_keyset_witness :
    (resolve_channel (some 36) none = some 36 ∧
      (([(1, ⟨0, []⟩)] : ChannelMap).lookup 36 = none)) ∧
    flush_record [(1, ⟨0, []⟩)] (some 36) none none = [(1, ⟨0, []⟩)] ∧
    (scan_channels "2.4" []).map Prod.fst = get_channels_for_band "2.4" := by
  refine ⟨⟨rfl, rfl⟩, ?_, ?_⟩
  · exact (scan_channels_keyset "2.4" []).2.1 [(1, ⟨0, []⟩)] (some 36) none
      none 36 rfl rfl
  · exact (scan_channels_keyset "2.4" []).1

/-- One persisted scan snapshot as `get_heatmap_data` reads it back:
its band tag (`none` for legacy files with no tag) and its channel →
data mapping.  Fields the aggregator does not read (timestamp) are
omitted. -/
structure Scan where
  band : Option String
  channels : List (ℕ × ChannelData)
deriving DecidableEq

/-- `_scan_total_networks(scan)` (`storage.py` lines 114–121): the sum
of the per-channel occupancy counts. -/
def scan_total_networks (scan : Scan) : ℕ :=
  (scan.channels.map (fun p => p.2.count)).sum

/-- Python's `max(xs, key=key)`: `none` on the empty list, otherwise the
fold that keeps the current maximum and replaces it only on a strictly
greater key (so the first maximum wins). -/
def py_max_by {α : Type} (key : α → ℕ) : List α → Option α
  | [] => none
  | x :: xs =>
    some (xs.foldl (fun best y => if key y > key best then y else best) x)

/-- The band filter of `get_heatmap_data` (`storage.py` lines 163–167):
keep the snapshots tagged with the requested band; when none match and
the band is 2.4GHz, fall back to the untagged legacy snapshots. -/
def band_matching (band : String) (scans : List Scan) : List Scan :=
  let band_scans := scans.filter (fun s => s.band = some band)
  if band_scans.isEmpty then
    if band = "2.4" then scans.filter (fun s => s.band = none) else band_scans
  else band_scans

/-- The per-day representative selection of `get_heatmap_data`
(`storage.py` line 174): `max(band_scans, key=_scan_total_networks)`,
or no representative when no snapshot matches. -/
def select_day_representative (band : String) (scans : List Scan) :
    Option Scan :=
  py_max_by scan_total_networks (band_matching band scans)

/-- The max-keeping fold returns an element of its input whose key
bounds every key seen. -/
lemma foldl_max_spec {α : Type} (key : α → ℕ) :
    ∀ (xs : List α) (x : α),
      ((xs.foldl (fun best y => if key y > key best then y else best) x) = x ∨
        (xs.foldl (fun best y => if key y > key best then y else best) x) ∈ xs) ∧
      key x ≤ key (xs.foldl (fun best y => if key y > key best then y else best) x) ∧
      ∀ y ∈ xs,
        key y ≤ key (xs.foldl (fun best y => if key y > key best then y else best) x) := by
  intro xs
  induction xs with
  | nil =>
    intro x
    exact ⟨Or.inl rfl, le_refl _, by simp⟩
  | cons z t ih =>
    intro x
    simp only [List.foldl_cons]
    by_cases h : key z > key x
    · rw [if_pos h]
      obtain ⟨hmem, hle, hall⟩ := ih z
      refine ⟨?_, ?_, ?_⟩
      · rcases hmem with h1 | h1
        · exact Or.inr (by rw [h1]; exact List.mem_cons_self z t)
        · exact Or.inr (List.mem_cons_of_mem z h1)
      · exact le_trans (le_of_lt h) hle
      · intro y hy
        rcases List.mem_cons.mp hy with rfl | hy'
        · exact hle
        · exact hall y hy'
    · rw [if_neg h]
      obtain ⟨hmem, hle, hall⟩ := ih x
      refine ⟨?_, ?_, ?_⟩
      · rcases hmem with h1 | h1
        · exact Or.inl h1
        · exact Or.inr (List.mem_cons_of_mem z h1)
      · exact hle
      · intro y hy
        rcases List.mem_cons.mp hy with rfl | hy'
        · exact le_trans (Nat.le_of_not_lt h) hle
        · exact hall y hy'

/-- C7: whenever `get_heatmap_data`'s per-day selection returns a
representative, it is one of the day's band-matching snapshots and its
total occupancy is maximal among them — so given two same-day same-band
snapshots with totals 10 and 4, the total-10 one is selected. -/
theorem select_day_representative_spec (band : String) (scans : List Scan) :
    ∀ s : Scan, select_day_representative band scans = some s →
      s ∈ band_matching band scans ∧
      ∀ t ∈ band_matching band scans,
        scan_total_networks t ≤ scan_total_networks s := by
  intro s hs
  unfold select_day_representative py_max_by at hs
  rcases hbm : band_matching band scans with _ | ⟨x, xs⟩
  · rw [hbm] at hs
    exact absurd hs (by simp)
  · rw [hbm] at hs
    have hfold := foldl_max_spec scan_total_networks xs x
    have hse : xs.foldl
        (fun best y =>
          if scan_total_networks y > scan_total_networks best then y else best)
        x = s := by
      exact Option.some_injective _ hs
    rw [hse] at hfold
    obtain ⟨hmem, hle, hall⟩ := hfold
    refine ⟨?_, ?_⟩
    · rcases hmem with h1 | h1
      · exact by rw [h1]; exact List.mem_cons_self x xs
      · exact List.mem_cons_of_mem x h1
    · intro t ht
      rcases List.mem_cons.mp ht with rfl | ht'
      · exact hle
      · exact hall t ht'

/-- A legacy-format same-day snapshot with total occupancy 4. -/
def scan_low : Scan :=
  { band := some "2.4", channels := [(1, { count := 4, networks := [] })] }

/-- A same-day same-band snapshot with total occupancy 10. -/
def scan_high : Scan :=
  { band := some "2.4", channels := [(1, { count := 10, networks := [] })] }

/-- Witness for `select_day_representative_spec`: between same-band
snapshots with totals 4 and 10 the total-10 snapshot is selected, is a
band match, and dominates the total-4 snapshot. -/
theorem select_day_representative_spec_witness :
    select_day_representative "2.4" [scan_low, scan_high] = some scan_high ∧
    scan_high ∈ band_matching "2.4" [scan_low, scan_high] ∧
    scan_total_networks scan_low ≤ scan_total_networks scan_high := by
  have hsel : select_day_representative "2.4" [scan_low, scan_high]
      = some scan_high := by decide
  refine ⟨hsel, ?_, ?_⟩
  · exact (select_day_representative_spec "2.4" [scan_low, scan_high]
      scan_high hsel).1
  · exact (select_day_representative_spec "2.4" [scan_low, scan_high]
      scan_high hsel).2 scan_low (by decide)
